import Mathlib

/-!
Verification development for the Infinitude HVAC client
(custom_components/infinitude_beyond/infinitude/api.py).

The Python client is shallowly embedded: JSON documents become an inductive
tree, datetimes become a (day ordinal, second-of-day) pair (all datetimes in
the client carry the same tzinfo, so aware comparisons coincide with naive
ones), and every fallible code path returns an explicit Python-exception
marker through Except.
-/

/-- The Python exception classes that the embedded code paths can raise. -/
inductive PyErr where
  | typeError
  | attributeError
  | valueError
  | nameError
  | overflowError
  | timeoutError
deriving DecidableEq, Repr

/-- A JSON value as handled by the client: the trees returned by the
Infinitude endpoints after aiohttp decoding (dicts, lists, scalars). -/
inductive Json where
  | null
  | bool (b : Bool)
  | num (n : Int)
  | str (s : String)
  | arr (elems : List Json)
  | obj (members : List (String × Json))
deriving Repr

mutual

/-- Embedding of Infinitude._simplify_json: remove all single item lists and
replace each with its sole item, recursing through dicts and lists. -/
def simplifyJson : Json → Json
  | .null => .null
  | .bool b => .bool b
  | .num n => .num n
  | .str s => .str s
  | .arr [e] => simplifyJson e
  | .arr es => .arr (simplifyList es)
  | .obj ms => .obj (simplifyObj ms)
termination_by j => sizeOf j

/-- The list comprehension of _simplify_json over the items of a list. -/
def simplifyList : List Json → List Json
  | [] => []
  | e :: es => simplifyJson e :: simplifyList es
termination_by es => sizeOf es

/-- The dict comprehension of _simplify_json over the values of a dict. -/
def simplifyObj : List (String × Json) → List (String × Json)
  | [] => []
  | (k, v) :: ms => (k, simplifyJson v) :: simplifyObj ms
termination_by ms => sizeOf ms

end

mutual

/-- A JSON value contains no single-item list anywhere (the shape invariant
that _simplify_json establishes). -/
def noSingleton : Json → Bool
  | .null => true
  | .bool _ => true
  | .num _ => true
  | .str _ => true
  | .arr es => decide (es.length ≠ 1) && noSingletonList es
  | .obj ms => noSingletonObj ms
termination_by j => sizeOf j

/-- noSingleton over the items of a list. -/
def noSingletonList : List Json → Bool
  | [] => true
  | e :: es => noSingleton e && noSingletonList es
termination_by es => sizeOf es

/-- noSingleton over the values of a dict. -/
def noSingletonObj : List (String × Json) → Bool
  | [] => true
  | (_, v) :: ms => noSingleton v && noSingletonObj ms
termination_by ms => sizeOf ms

end

/-- simplifyList keeps the length of the list it maps over. -/
theorem simplifyList_length (es : List Json) : (simplifyList es).length = es.length := by
  induction es with
  | nil => simp [simplifyList]
  | cons e es ih => simp [simplifyList, ih]

mutual

/-- The normalizer output contains no single-item list at any depth. -/
theorem noSingleton_simplifyJson : ∀ j : Json, noSingleton (simplifyJson j) = true
  | .null => by simp [simplifyJson, noSingleton]
  | .bool _ => by simp [simplifyJson, noSingleton]
  | .num _ => by simp [simplifyJson, noSingleton]
  | .str _ => by simp [simplifyJson, noSingleton]
  | .arr [] => by
    simp [simplifyJson, noSingleton, simplifyList, noSingletonList]
  | .arr [e] => by
    simpa [simplifyJson] using noSingleton_simplifyJson e
  | .arr (e :: e2 :: rest) => by
    have h := noSingleton_simplifyList (e :: e2 :: rest)
    have hlen := simplifyList_length (e :: e2 :: rest)
    simp only [simplifyJson, noSingleton, Bool.and_eq_true, decide_eq_true_eq]
    refine ⟨?_, h⟩
    rw [hlen]
    simp
  | .obj ms => by
    simpa [simplifyJson, noSingleton] using noSingleton_simplifyObj ms
termination_by j => sizeOf j

/-- List version of noSingleton_simplifyJson. -/
theorem noSingleton_simplifyList : ∀ es : List Json, noSingletonList (simplifyList es) = true
  | [] => by simp [simplifyList, noSingletonList]
  | e :: es => by
    simp [simplifyList, noSingletonList, noSingleton_simplifyJson e,
      noSingleton_simplifyList es]
termination_by es => sizeOf es

/-- Dict version of noSingleton_simplifyJson. -/
theorem noSingleton_simplifyObj : ∀ ms : List (String × Json),
    noSingletonObj (simplifyObj ms) = true
  | [] => by simp [simplifyObj, noSingletonObj]
  | (k, v) :: ms => by
    simp [simplifyObj, noSingletonObj, noSingleton_simplifyJson v,
      noSingleton_simplifyObj ms]
termination_by ms => sizeOf ms

end

mutual

/-- The normalizer is the identity on values already free of single-item
lists. -/
theorem simplifyJson_of_noSingleton : ∀ j : Json, noSingleton j = true → simplifyJson j = j
  | .null, _ => by simp [simplifyJson]
  | .bool _, _ => by simp [simplifyJson]
  | .num _, _ => by simp [simplifyJson]
  | .str _, _ => by simp [simplifyJson]
  | .arr [], _ => by simp [simplifyJson, simplifyList]
  | .arr [e], h => by
    exfalso
    simp [noSingleton] at h
  | .arr (e :: e2 :: rest), h => by
    simp only [noSingleton, Bool.and_eq_true] at h
    have h2 := simplifyList_of_noSingleton (e :: e2 :: rest) h.2
    simp [simplifyJson, h2]
  | .obj ms, h => by
    simp only [noSingleton] at h
    simp [simplifyJson, simplifyObj_of_noSingleton ms h]
termination_by j => sizeOf j

/-- List version of simplifyJson_of_noSingleton. -/
theorem simplifyList_of_noSingleton : ∀ es : List Json,
    noSingletonList es = true → simplifyList es = es
  | [], _ => by simp [simplifyList]
  | e :: es, h => by
    simp only [noSingletonList, Bool.and_eq_true] at h
    simp [simplifyList, simplifyJson_of_noSingleton e h.1,
      simplifyList_of_noSingleton es h.2]
termination_by es => sizeOf es

/-- Dict version of simplifyJson_of_noSingleton. -/
theorem simplifyObj_of_noSingleton : ∀ ms : List (String × Json),
    noSingletonObj ms = true → simplifyObj ms = ms
  | [], _ => by simp [simplifyObj]
  | (k, v) :: ms, h => by
    simp only [noSingletonObj, Bool.and_eq_true] at h
    simp [simplifyObj, simplifyJson_of_noSingleton v h.1,
      simplifyObj_of_noSingleton ms h.2]
termination_by ms => sizeOf ms

end

/-- C7: the JSON normalizer is idempotent: for every acyclic, finite-depth
JSON value x, simplify(simplify(x)) = simplify(x). -/
theorem simplifyJson_idempotent (j : Json) :
    simplifyJson (simplifyJson j) = simplifyJson j :=
  simplifyJson_of_noSingleton (simplifyJson j) (noSingleton_simplifyJson j)

/-- Embedding of InfinitudeSystem.energy: return the cached energy snapshot
itself when it is a dict and is not the empty dict, else None. -/
def energyAccessor (e : Json) : Option Json :=
  match e with
  | .obj [] => none
  | .obj ms => some (.obj ms)
  | _ => none

/-- Dict key lookup, used to state what the spec says the accessor returns:
the value stored under a key of a JSON object. -/
def jsonLookup (key : String) : Json → Option Json
  | .obj ms => (ms.find? (fun kv => kv.1 = key)).map (fun kv => kv.2)
  | _ => none

/-- A JSON value that is a dict with at least one member. -/
def isNonemptyObj : Json → Bool
  | .obj (_ :: _) => true
  | _ => false

/-- C8 counterexample: on the snapshot containing the sub-key energy, the
accessor returns the whole snapshot, which differs from the value stored
under the energy sub-key, so the accessor does not return the sub-key. -/
theorem energyAccessor_not_subkey :
    energyAccessor (Json.obj [("energy", Json.str "kWh")])
        = some (Json.obj [("energy", Json.str "kWh")])
      ∧ jsonLookup "energy" (Json.obj [("energy", Json.str "kWh")])
        = some (Json.str "kWh")
      ∧ energyAccessor (Json.obj [("energy", Json.str "kWh")])
        ≠ jsonLookup "energy" (Json.obj [("energy", Json.str "kWh")]) := by
  refine ⟨rfl, by simp [jsonLookup, List.find?], ?_⟩
  intro h
  simp [energyAccessor, jsonLookup, List.find?] at h

/-- C8 amended: for every cached energy snapshot, the accessor returns the
whole snapshot when it is a nonempty dict and an absent value otherwise,
and as a total function it never raises. -/
theorem energyAccessor_whole_snapshot (e : Json) :
    energyAccessor e = if isNonemptyObj e then some e else none := by
  match e with
  | .null => rfl
  | .bool _ => rfl
  | .num _ => rfl
  | .str _ => rfl
  | .arr _ => rfl
  | .obj [] => rfl
  | .obj (kv :: ms) => rfl

/-- A Python datetime, reduced to its proleptic Gregorian ordinal (the value
of date.toordinal, day 1 = 0001-01-01) and its second of day. Every datetime
built by the client carries the same tzinfo (System.local_timezone), so
aware comparisons coincide with this naive representation. -/
structure DT where
  day : Nat
  sec : Nat
deriving DecidableEq, Repr

/-- Python datetime comparison, restricted to datetimes sharing a tzinfo:
lexicographic on (date, time of day). -/
def dtLt (a b : DT) : Bool :=
  a.day < b.day || (a.day = b.day && a.sec < b.sec)

/-- The ordinal of date.max = 9999-12-31; constructing any later date
raises OverflowError. -/
def maxOrdinal : Nat := 3652059

/-- The strings produced by datetime.strftime with the %A directive, in
weekday order starting from Monday. -/
def weekdayNames : List String :=
  ["Monday", "Tuesday", "Wednesday", "Thursday", "Friday", "Saturday", "Sunday"]

/-- datetime.strftime %A of an ordinal day: ordinal 1 (0001-01-01) is a
Monday and weekdays repeat with period 7. -/
def weekdayName (day : Nat) : String :=
  weekdayNames.getD ((day - 1) % 7) "Monday"

/-- One entry of a day's program.day[].period[] list in zone config, with
the keys the projector reads: time, enabled, activity. -/
structure SchedulePeriod where
  time : String
  enabled : String
  activity : String
deriving DecidableEq, Repr

/-- One entry of a zone's program.day[] list in zone config: an id naming
the weekday and the period list for that day. -/
structure ScheduleDay where
  id : String
  period : List SchedulePeriod
deriving DecidableEq, Repr

/-- Python str.split with a colon separator, written over the character
list. -/
def splitColonAux : List Char → List Char → List (List Char)
  | [], acc => [acc.reverse]
  | c :: rest, acc =>
    if c = ':' then acc.reverse :: splitColonAux rest []
    else splitColonAux rest (c :: acc)

/-- The numeric value of an ASCII digit, or none for any other character. -/
def digitVal (c : Char) : Option Nat :=
  if '0' ≤ c ∧ c ≤ '9' then some (c.toNat - 48) else none

/-- The digits of a nonempty all-digit string read as a Nat, none
otherwise. -/
def digitsToNat : List Char → Option Nat
  | [] => none
  | cs => go cs 0
where go : List Char → Nat → Option Nat
  | [], acc => some acc
  | c :: rest, acc =>
    match digitVal c with
    | some d => go rest (acc * 10 + d)
    | none => none

/-- Python int() over a string: an optional sign followed by digits; none
models the ValueError raised on anything else. -/
def pyInt (cs : List Char) : Option Int :=
  match cs with
  | '-' :: rest => (digitsToNat rest).map (fun n => -(n : Int))
  | '+' :: rest => (digitsToNat rest).map (fun n => (n : Int))
  | _ => (digitsToNat cs).map (fun n => (n : Int))

/-- The two-field unpacking split plus int() conversions that the projector
applies to a period time string: period.time.split with exactly one colon
expected, then int(hh) and int(mm). none models the ValueError paths. -/
def parseHHMM (s : String) : Option (Int × Int) :=
  match splitColonAux s.data [] with
  | [hh, mm] =>
    match pyInt hh, pyInt mm with
    | some h, some m => some (h, m)
    | _, _ => none
  | _ => none

/-- Result of the for loop over one day's periods in _update_activities,
carrying the scheduled-activity locals as updated so far. -/
inductive ScanResult where
  | found (sched : Option String) (schedStart : Option DT) (next : String) (nextStart : DT)
  | nofind (sched : Option String) (schedStart : Option DT)
  | fail (sched : Option String) (schedStart : Option DT)
deriving DecidableEq, Repr

/-- Embedding of the for loop over program.period in _update_activities:
skip periods whose enabled flag is off; construct the period datetime on
the day under consideration (datetime() validates hour and minute ranges);
a period strictly before now overwrites the scheduled locals; the first
period at or after now becomes the next activity and breaks. fail models
any exception while handling a period. -/
def scanPeriods (now : DT) (ps : List SchedulePeriod)
    (sched : Option String) (schedStart : Option DT) : ScanResult :=
  match ps with
  | [] => .nofind sched schedStart
  | p :: rest =>
    if p.enabled = "off" then scanPeriods now rest sched schedStart
    else
      match parseHHMM p.time with
      | none => .fail sched schedStart
      | some (h, m) =>
        if 0 ≤ h ∧ h < 24 ∧ 0 ≤ m ∧ m < 60 then
          let pdt : DT := ⟨now.day, (h.toNat * 60 + m.toNat) * 60⟩
          if dtLt pdt now then scanPeriods now rest (some p.activity) (some pdt)
          else .found sched schedStart p.activity pdt
        else .fail sched schedStart

/-- Outcome of the while loop of _update_activities. advances counts the
day-advancing reassignments of dt performed; fail carries whether the local
variable named program had been bound when the exception was raised, since
the except handler logs that variable and itself raises NameError when it
is unbound. -/
inductive LoopOutcome where
  | found (sched : Option String) (schedStart : Option DT) (next : String)
      (nextStart : DT) (advances : Nat)
  | fail (sched : Option String) (schedStart : Option DT) (advances : Nat)
      (programBound : Bool)
deriving DecidableEq, Repr

/-- Embedding of the while loop of _update_activities: look up the first
program.day entry whose id is the weekday name of dt (next() raises
StopIteration when absent), scan its periods, and when no next activity was
found reassign dt to midnight of the following day and repeat. The
reassignment raises OverflowError past date.max; the reassignment is also
performed on the iteration that finds the next activity, where an overflow
is likewise caught by the handler and leaves the found locals intact. -/
def dayLoop (days : List ScheduleDay) (dt : DT) (sched : Option String)
    (schedStart : Option DT) (advances : Nat) (programBound : Bool) : LoopOutcome :=
  match days.find? (fun d => d.id = weekdayName dt.day) with
  | none => .fail sched schedStart advances programBound
  | some dayEntry =>
    match scanPeriods dt dayEntry.period sched schedStart with
    | .fail s ss => .fail s ss advances true
    | .found s ss nx nxs =>
      if dt.day < maxOrdinal then .found s ss nx nxs (advances + 1)
      else .found s ss nx nxs advances
    | .nofind s ss =>
      if h : dt.day < maxOrdinal then
        dayLoop days ⟨dt.day + 1, 0⟩ s ss (advances + 1) true
      else .fail s ss advances true
termination_by maxOrdinal - dt.day
decreasing_by omega

/-- The four derived schedule fields of a zone, as assigned at the end of
_update_activities. -/
structure DerivedFields where
  activityScheduled : Option String
  activityScheduledStart : Option DT
  activityNext : Option String
  activityNextStart : Option DT
deriving DecidableEq, Repr

/-- The field assignments at the end of _update_activities: on a caught
exception the four fields are assigned from the locals as they stood, and
the except handler logs the local variable named program, which raises
NameError out of the call when no day lookup had yet succeeded. -/
def finishUpdate : LoopOutcome → Except PyErr DerivedFields
  | .found s ss nx nxs _ => .ok ⟨s, ss, some nx, some nxs⟩
  | .fail s ss _ bound =>
    if bound then .ok ⟨s, ss, none, none⟩
    else .error .nameError

/-- Embedding of InfinitudeZone._update_activities, given the zone config
program.day table and the datetime returned by System.local_time. -/
def updateActivities (days : List ScheduleDay) (now : DT) :
    Except PyErr DerivedFields :=
  finishUpdate (dayLoop days now none none 0 false)

/-- A period present but disabled, as found in a zone whose week has no
enabled period. -/
def offPeriod : SchedulePeriod := ⟨"08:00", "off", "home"⟩

/-- A syntactically complete 7-day period table in which every period is
disabled: each weekday entry exists and holds one disabled period. -/
def allDisabledWeek : List ScheduleDay :=
  weekdayNames.map (fun nm => ⟨nm, [offPeriod]⟩)

/-- In the all-disabled table, the day lookup of the projector always
succeeds and yields that weekday's sole disabled-period entry. -/
theorem allDisabledWeek_find (d : Nat) :
    allDisabledWeek.find? (fun x => x.id = weekdayName d)
      = some ⟨weekdayName d, [offPeriod]⟩ := by
  have hr : (d - 1) % 7 < 7 := Nat.mod_lt _ (by norm_num)
  unfold weekdayName
  generalize (d - 1) % 7 = r at hr ⊢
  interval_cases r <;> rfl

/-- Running the projector loop on the all-disabled table from any datetime
advances one day per iteration with no next activity ever found, stopping
only when the day-advance overflows past date.max: the loop performs
exactly maxOrdinal minus the starting ordinal day-advances. -/
theorem allDisabledWeek_dayLoop : ∀ k : Nat, ∀ dt : DT, ∀ sched : Option String,
    ∀ ss : Option DT, ∀ adv : Nat, ∀ b : Bool,
    dt.day ≤ maxOrdinal → maxOrdinal - dt.day = k →
    dayLoop allDisabledWeek dt sched ss adv b = .fail sched ss (adv + k) true := by
  intro k
  induction k with
  | zero =>
    intro dt sched ss adv b hle hk
    rw [dayLoop.eq_def, allDisabledWeek_find]
    have hnotlt : ¬ dt.day < maxOrdinal := by omega
    simp [scanPeriods, offPeriod, hnotlt]
  | succ n ih =>
    intro dt sched ss adv b hle hk
    rw [dayLoop.eq_def, allDisabledWeek_find]
    have hlt : dt.day < maxOrdinal := by omega
    have hrec := ih ⟨dt.day + 1, 0⟩ sched ss (adv + 1) true
      (by show dt.day + 1 ≤ maxOrdinal; omega)
      (by show maxOrdinal - (dt.day + 1) = n; omega)
    simp [scanPeriods, offPeriod, hlt, hrec]
    omega

/-- C1 (refuting the bound): on a 7-day table whose entries all exist but
hold no enabled period, started at noon of ordinal day 730120 (a date in
year 2000), the projector loop performs maxOrdinal - 730120 = 2921939
day-advances, far more than 8, terminating only through the datetime
overflow at year 9999; the call then returns with all four fields null. -/
theorem updateActivities_not_bounded_by_8 :
    dayLoop allDisabledWeek ⟨730120, 43200⟩ none none 0 false
        = .fail none none (maxOrdinal - 730120) true
      ∧ maxOrdinal - 730120 = 2921939
      ∧ 8 < maxOrdinal - 730120
      ∧ updateActivities allDisabledWeek ⟨730120, 43200⟩
        = .ok ⟨none, none, none, none⟩ := by
  have h := allDisabledWeek_dayLoop (maxOrdinal - 730120) ⟨730120, 43200⟩
    none none 0 false (by show 730120 ≤ maxOrdinal; norm_num [maxOrdinal])
    (by show maxOrdinal - 730120 = maxOrdinal - 730120; rfl)
  rw [show (0 + (maxOrdinal - 730120)) = maxOrdinal - 730120 by omega] at h
  refine ⟨h, by norm_num [maxOrdinal], by norm_num [maxOrdinal], ?_⟩
  rw [updateActivities, h]
  rfl

/-- A period table that only covers Monday, whose sole period is enabled
and starts at 08:00. -/
def mondayOnlyTable : List ScheduleDay :=
  [⟨"Monday", [⟨"08:00", "on", "home"⟩]⟩]

/-- C2 counterexample input evaluated: started at noon of ordinal day 1 (a
Monday), the projector records the past 08:00 period as the scheduled
activity, advances to Tuesday, fails to find a Tuesday entry, and the
caught error leaves the call with the scheduled pair populated while the
next pair is null - a partial mix of populated and null derived fields. -/
theorem updateActivities_partial_mix :
    updateActivities mondayOnlyTable ⟨1, 43200⟩
        = .ok ⟨some "home", some ⟨1, 28800⟩, none, none⟩
      ∧ (some "home" ≠ (none : Option String)) := by
  have h1 : dayLoop mondayOnlyTable ⟨1, 43200⟩ none none 0 false
      = dayLoop mondayOnlyTable ⟨2, 0⟩ (some "home") (some ⟨1, 28800⟩) 1 true := by
    rw [dayLoop.eq_def]
    have hfind : mondayOnlyTable.find? (fun x => x.id = weekdayName 1)
        = some ⟨"Monday", [⟨"08:00", "on", "home"⟩]⟩ := by decide
    have hscan : scanPeriods ⟨1, 43200⟩ [⟨"08:00", "on", "home"⟩] none none
        = .nofind (some "home") (some ⟨1, 28800⟩) := by decide
    simp only [hfind, hscan]
    norm_num [maxOrdinal]
  have h2 : dayLoop mondayOnlyTable ⟨2, 0⟩ (some "home") (some ⟨1, 28800⟩) 1 true
      = .fail (some "home") (some ⟨1, 28800⟩) 1 true := by
    rw [dayLoop.eq_def]
    have hfind : mondayOnlyTable.find? (fun x => x.id = weekdayName 2)
        = none := by decide
    simp only [hfind]
  refine ⟨?_, by simp⟩
  rw [updateActivities, h1, h2]
  rfl

/-- The 14 digit positions of the localTime core pattern are ASCII digits
and the separators sit at their fixed positions (the regex
dddd-dd-ddTdd:dd:dd). -/
def matchesCore : List Char → Bool
  | [y1, y2, y3, y4, '-', o1, o2, '-', d1, d2, 'T', h1, h2, ':', i1, i2, ':', s1, s2] =>
    [y1, y2, y3, y4, o1, o2, d1, d2, h1, h2, i1, i2, s1, s2].all
      (fun c => (digitVal c).isSome)
  | _ => false

/-- The optional offset group of the localTime pattern: a sign, two digits,
a colon, two digits. -/
def matchesOffset : List Char → Bool
  | [sg, h1, h2, ':', m1, m2] =>
    (sg = '+' || sg = '-') && [h1, h2, m1, m2].all (fun c => (digitVal c).isSome)
  | _ => false

/-- Embedding of re.match with the localTime pattern: some (group1, group2)
on a match, none otherwise; group2 is present only when the offset suffix
matched. -/
def matchLocalTime (cs : List Char) : Option (List Char × Option (List Char)) :=
  if matchesCore cs then some (cs, none)
  else if matchesCore (cs.take 19) && matchesOffset (cs.drop 19) then
    some (cs.take 19, some (cs.drop 19))
  else none

/-- The numeric value of a two-digit field. -/
def dec2 (a b : Char) : Nat := (digitVal a).getD 0 * 10 + (digitVal b).getD 0

/-- A leap year in the proleptic Gregorian calendar used by datetime. -/
def isLeapYear (y : Nat) : Bool := y % 4 = 0 && (y % 100 ≠ 0 || y % 400 = 0)

/-- The number of days in a month of a year. -/
def daysInMonth (y m : Nat) : Nat :=
  if m = 2 then (if isLeapYear y then 29 else 28)
  else if m = 4 ∨ m = 6 ∨ m = 9 ∨ m = 11 then 30
  else 31

/-- The number of days in the months of year y before month m. -/
def daysBeforeMonth (y m : Nat) : Nat :=
  ((List.range (m - 1)).map (fun i => daysInMonth y (i + 1))).sum

/-- The number of days before January 1 of year y, per date.toordinal. -/
def daysBeforeYear (y : Nat) : Nat :=
  365 * (y - 1) + (y - 1) / 4 - (y - 1) / 100 + (y - 1) / 400

/-- date(y, m, d).toordinal(). -/
def toOrdinal (y m d : Nat) : Nat := daysBeforeYear y + daysBeforeMonth y m + d

/-- datetime.strptime of the matched 19-character core group with format
%Y-%m-%dT%H:%M:%S, validating the calendar ranges; none models the
ValueError it raises on an out-of-range component. -/
def strptimeCore (cs : List Char) : Option DT :=
  match cs with
  | [y1, y2, y3, y4, '-', o1, o2, '-', d1, d2, 'T', h1, h2, ':', i1, i2, ':', s1, s2] =>
    let y := dec2 y1 y2 * 100 + dec2 y3 y4
    let mo := dec2 o1 o2
    let d := dec2 d1 d2
    let h := dec2 h1 h2
    let mi := dec2 i1 i2
    let s := dec2 s1 s2
    if 1 ≤ y ∧ 1 ≤ mo ∧ mo ≤ 12 ∧ 1 ≤ d ∧ d ≤ daysInMonth y mo
        ∧ h ≤ 23 ∧ mi ≤ 59 ∧ s ≤ 59 then
      some ⟨toOrdinal y mo d, h * 3600 + mi * 60 + s⟩
    else none
  | _ => none

/-- The timezone offset in minutes that local_timezone builds from a
matched offset group: hours and minutes from map(int, offset.split of the
colon), then timedelta(hours=hours, minutes=minutes). The sign applies
only to the hour component, exactly as in the source. -/
def parseOffsetMinutes (cs : List Char) : Int :=
  match cs with
  | [sg, h1, h2, ':', m1, m2] =>
    let h : Int := dec2 h1 h2
    let hs : Int := if sg = '-' then -h else h
    hs * 60 + (dec2 m1 m2 : Int)
  | _ => 0

/-- Embedding of InfinitudeSystem.local_timezone, as a function of the raw
localTime status value and the host timezone offset in minutes. re.match
on a missing value raises TypeError; reading lastindex on the None result
of a failed match raises AttributeError; neither is caught here. -/
def localTimezone (lt : Option String) (hostTz : Int) : Except PyErr Int :=
  match lt with
  | none => .error .typeError
  | some s =>
    match matchLocalTime s.data with
    | none => .error .attributeError
    | some (_, some off) => .ok (parseOffsetMinutes off)
    | some (_, none) => .ok hostTz

/-- Embedding of InfinitudeSystem.local_time, as a function of the raw
localTime status value, the host clock datetime.now() and the host
timezone. Only TypeError is caught by the try block, after which the
fallback still evaluates local_timezone, whose own uncaught re.match
TypeError escapes; a malformed string makes matches None, and reading
group(1) on it raises AttributeError, which the except clause does not
catch either. -/
def localTimeAccessor (lt : Option String) (hostNow : DT) (hostTz : Int) :
    Except PyErr (DT × Int) :=
  match lt with
  | none =>
    match localTimezone none hostTz with
    | .error e => .error e
    | .ok tz => .ok (hostNow, tz)
  | some s =>
    match matchLocalTime s.data with
    | none => .error .attributeError
    | some (g1, _) =>
      match strptimeCore g1 with
      | none => .error .valueError
      | some dtv =>
        match localTimezone (some s) hostTz with
        | .error e => .error e
        | .ok tz => .ok (dtv, tz)

/-- C6 (refuting the lenient fallback): a null localTime raises TypeError
out of local_time (the fallback evaluates local_timezone, which calls
re.match on the null again, uncaught), and a malformed localTime string
raises AttributeError (group(1) on a failed match), so neither case falls
back to the host clock. -/
theorem localTime_raises_on_null_and_malformed (hostNow : DT) (hostTz : Int) :
    localTimeAccessor none hostNow hostTz = .error .typeError
      ∧ localTimeAccessor (some "garbage") hostNow hostTz = .error .attributeError
      ∧ localTimeAccessor (some "2024-05-01T12:30:00") hostNow hostTz
        = .ok (⟨739007, 45000⟩, hostTz) := by
  refine ⟨rfl, ?_, ?_⟩
  · have hm : matchLocalTime ("garbage".data) = none := by decide
    simp only [localTimeAccessor, hm]
  · have hm : matchLocalTime ("2024-05-01T12:30:00".data)
        = some ("2024-05-01T12:30:00".data, none) := by decide
    have hs : strptimeCore ("2024-05-01T12:30:00".data) = some ⟨739007, 45000⟩ := by decide
    simp only [localTimeAccessor, localTimezone, hm, hs]

/-- The HoldState code table of const.py: OFF = off, ON = on. -/
inductive HoldStateE where
  | off
  | on
deriving DecidableEq, Repr

/-- The computed HoldMode values of const.py: OFF, INDEFINITE, UNTIL. -/
inductive HoldModeE where
  | off
  | indefinite
  | untilTime
deriving DecidableEq, Repr

/-- Embedding of InfinitudeZone.hold_state: a falsy config hold value gives
None, a known code gives its enum member, an unknown code logs a warning
and gives None. -/
def parseHoldState (v : Option String) : Option HoldStateE :=
  match v with
  | none => none
  | some s =>
    if s = "" then none
    else if s = "off" then some .off
    else if s = "on" then some .on
    else none

/-- The raw otmr status value as hold_until sees it: missing, a string, or
some non-string JSON value (isinstance is what the source tests). -/
inductive OtmrVal where
  | absent
  | strv (s : String)
  | nonstr
deriving DecidableEq, Repr

/-- Embedding of InfinitudeZone.hold_until, as a function of the raw otmr
status value and the result of System.local_time. A non-string otmr gives
None before anything else runs; the split and two-name unpacking raise
ValueError on a string without exactly one colon; local_time is read next
and its exception propagates; the int conversions and the datetime
constructor validate the fields; a time already past now rolls forward one
day, overflowing past date.max. -/
def holdUntil (otmr : OtmrVal) (lt : Except PyErr (DT × Int)) :
    Except PyErr (Option DT) :=
  match otmr with
  | .strv v =>
    match splitColonAux v.data [] with
    | [hh, mm] =>
      match lt with
      | .error e => .error e
      | .ok (now, _tz) =>
        match pyInt hh, pyInt mm with
        | some h, some m =>
          if 0 ≤ h ∧ h < 24 ∧ 0 ≤ m ∧ m < 60 then
            let u : DT := ⟨now.day, (h.toNat * 60 + m.toNat) * 60⟩
            if dtLt u now then
              if now.day < maxOrdinal then .ok (some ⟨u.day + 1, u.sec⟩)
              else .error .overflowError
            else .ok (some u)
          else .error .valueError
        | _, _ => .error .valueError
    | _ => .error .valueError
  | _ => .ok none

/-- Embedding of InfinitudeZone.hold_mode: OFF unless the hold state is ON;
with hold ON, UNTIL when hold_until yields a time and INDEFINITE when it
yields None. -/
def holdMode (cfgHold : Option String) (otmr : OtmrVal)
    (lt : Except PyErr (DT × Int)) : Except PyErr HoldModeE :=
  if parseHoldState cfgHold = some .on then
    match holdUntil otmr lt with
    | .error e => .error e
    | .ok (some _) => .ok .untilTime
    | .ok none => .ok .indefinite
  else .ok .off

/-- C3: the hold_mode truth table: hold off gives OFF whatever otmr holds;
hold on with otmr absent gives INDEFINITE; hold on with otmr 14:30 gives
UNTIL for any local time before the date.max overflow edge. -/
theorem holdMode_truth_table (otmr : OtmrVal) (lt : Except PyErr (DT × Int))
    (now : DT) (tz : Int) (hday : now.day < maxOrdinal) :
    holdMode (some "off") otmr lt = .ok .off
      ∧ holdMode (some "on") .absent lt = .ok .indefinite
      ∧ holdMode (some "on") (.strv "14:30") (.ok (now, tz)) = .ok .untilTime := by
  refine ⟨rfl, rfl, ?_⟩
  have hsplit : splitColonAux ("14:30".data) [] = [['1', '4'], ['3', '0']] := by decide
  have hps : parseHoldState (some "on") = some HoldStateE.on := by decide
  have h14 : pyInt ['1', '4'] = some 14 := by decide
  have h30 : pyInt ['3', '0'] = some 30 := by decide
  rcases Bool.eq_false_or_eq_true (dtLt ⟨now.day, 52200⟩ now) with hb | hb
  all_goals simp [holdMode, holdUntil, hps, hsplit, h14, h30, hb, hday]

/-- Witness for the hold_mode truth table at a concrete state: hold on with
otmr 14:30 at noon of ordinal day 738886 gives UNTIL, and the other two
rows at the same state. -/
theorem holdMode_truth_table_witness :
    holdMode (some "off") (.strv "14:30") (.ok (⟨738886, 43200⟩, 0)) = .ok .off
      ∧ holdMode (some "on") .absent (.ok (⟨738886, 43200⟩, 0)) = .ok .indefinite
      ∧ holdMode (some "on") (.strv "14:30") (.ok (⟨738886, 43200⟩, 0))
        = .ok .untilTime :=
  holdMode_truth_table (.strv "14:30") (.ok (⟨738886, 43200⟩, 0)) ⟨738886, 43200⟩ 0
    (by norm_num [maxOrdinal])

/-- Python round() applied to the exact quotient num/den, rounding half to
even. In set_hold_mode the quotient is until.minute / 15 with minute in
[0,59]: none of those float quotients is a representable tie or near one,
so the double rounds to the same integer as the exact rational. -/
def roundHalfEvenNatDiv (num den : Nat) : Nat :=
  let q := num / den
  let r := num % den
  if 2 * r < den then q
  else if den < 2 * r then q + 1
  else if q % 2 = 0 then q else q + 1

/-- The multiple of 15 nearest to a minute value in [0,59], written with
the floor division that realizes nearest rounding; no integer minute sits
exactly halfway between two quarter marks, so nearest is unambiguous. -/
def nearestQuarter (m : Nat) : Nat := ((m + 7) / 15) * 15

/-- The shifted total of set_hold_mode in seconds since day 0: until plus
timedelta(minutes = nearest_fifteen - until.minute), where nearest_fifteen
is round(until.minute / 15) * 15. -/
def shiftedTotal (u : DT) : Int :=
  (u.day : Int) * 86400 + (u.sec : Int)
    + ((roundHalfEvenNatDiv (u.sec / 60 % 60) 15 * 15 : Nat) - (u.sec / 60 % 60 : Nat) : Int) * 60

/-- The rounding step of set_hold_mode: the timedelta addition normalizes
the shifted total across midnight and raises OverflowError outside the
datetime range. -/
def roundUntilDT (u : DT) : Except PyErr DT :=
  if shiftedTotal u / 86400 < 1 ∨ (maxOrdinal : Int) < shiftedTotal u / 86400 then
    .error .overflowError
  else .ok ⟨(shiftedTotal u / 86400).toNat, (shiftedTotal u % 86400).toNat⟩

/-- strftime %H or %M: a number below 100 printed as two digits. -/
def pad2 (n : Nat) : String :=
  String.mk [Char.ofNat (48 + n / 10 % 10), Char.ofNat (48 + n % 10)]

/-- strftime with format %H:%M of a second-of-day value. -/
def hhmmOfSec (sec : Nat) : String := pad2 (sec / 3600) ++ ":" ++ pad2 (sec % 3600 / 60)

/-- Embedding of InfinitudeZone.set_hold_mode after its defaults are
resolved: until.minute on a missing until raises AttributeError, the
rounding runs before the mode dispatch, and the payload is built per mode;
activity.value on a missing activity raises AttributeError in the
INDEFINITE and UNTIL payloads. -/
def setHoldModePayload (mode : HoldModeE) (activity : Option String)
    (untilArg : Option DT) : Except PyErr (List (String × String)) :=
  match untilArg with
  | none => .error .attributeError
  | some u =>
    match roundUntilDT u with
    | .error e => .error e
    | .ok u2 =>
      match mode with
      | .off => .ok [("hold", "off"), ("activity", ""), ("until", "")]
      | .indefinite =>
        match activity with
        | none => .error .attributeError
        | some a => .ok [("hold", "on"), ("activity", a), ("until", "forever")]
      | .untilTime =>
        match activity with
        | none => .error .attributeError
        | some a => .ok [("hold", "on"), ("activity", a), ("until", hhmmOfSec u2.sec)]

/-- Two second-of-day values with the same hour and minute print the same
%H:%M string. -/
theorem hhmmOfSec_congr (a b : Nat) (h1 : a / 3600 = b / 3600)
    (h2 : a % 3600 / 60 = b % 3600 / 60) : hhmmOfSec a = hhmmOfSec b := by
  simp [hhmmOfSec, h1, h2]

/-- The code rounding of a minute in [0,59] agrees with the nearest
quarter mark. -/
theorem roundHalfEvenNatDiv_eq_nearestQuarter (m : Nat) (hm : m < 60) :
    roundHalfEvenNatDiv m 15 * 15 = nearestQuarter m := by
  interval_cases m <;> rfl

/-- On an in-range datetime the shifted total is the plain sum with the
minute replaced by its nearest quarter mark. -/
theorem shiftedTotal_eq (d h m s : Nat) (hh : h < 24) (hm : m < 60) (hs : s < 60) :
    shiftedTotal ⟨d, h * 3600 + m * 60 + s⟩
      = ((d * 86400 + h * 3600 + nearestQuarter m * 60 + s : Nat) : Int) := by
  have hminute : (h * 3600 + m * 60 + s) / 60 % 60 = m := by omega
  unfold shiftedTotal
  simp only [hminute, roundHalfEvenNatDiv_eq_nearestQuarter m hm]
  push_cast
  ring

/-- On an in-range datetime below the overflow edge, the rounding step of
set_hold_mode succeeds and lands on the normalized day and second of the
quarter-shifted total. -/
theorem roundUntilDT_eq (d h m s : Nat) (hd1 : 1 ≤ d) (hd2 : d < maxOrdinal)
    (hh : h < 24) (hm : m < 60) (hs : s < 60) :
    roundUntilDT ⟨d, h * 3600 + m * 60 + s⟩
      = .ok ⟨d + (h * 3600 + nearestQuarter m * 60 + s) / 86400,
          (h * 3600 + nearestQuarter m * 60 + s) % 86400⟩ := by
  have hst := shiftedTotal_eq d h m s hh hm hs
  have hnq : nearestQuarter m ≤ 60 := by unfold nearestQuarter; omega
  have hmax : maxOrdinal = 3652059 := rfl
  unfold roundUntilDT
  rw [hst]
  have hof : ¬(((d * 86400 + h * 3600 + nearestQuarter m * 60 + s : Nat) : Int) / 86400 < 1
      ∨ (maxOrdinal : Int)
        < ((d * 86400 + h * 3600 + nearestQuarter m * 60 + s : Nat) : Int) / 86400) := by
    rw [hmax] at hd2 ⊢
    push_cast
    omega
  rw [if_neg hof]
  have f1 : (((d * 86400 + h * 3600 + nearestQuarter m * 60 + s : Nat) : Int) / 86400).toNat
      = d + (h * 3600 + nearestQuarter m * 60 + s) / 86400 := by omega
  have f2 : (((d * 86400 + h * 3600 + nearestQuarter m * 60 + s : Nat) : Int) % 86400).toNat
      = (h * 3600 + nearestQuarter m * 60 + s) % 86400 := by omega
  rw [f1, f2]

/-- C5: for every resolved until timestamp with minute in [0,59] (any
in-range datetime), the HH:MM sent in the UNTIL payload is the timestamp
shifted to the nearest quarter mark, a rounded value of 60 wrapping into
the next hour through the mod-1440 minute-of-day; in particular minute 53
shifts to the next hour at :00, minute 7 to :00, and minute 8 to :15. -/
theorem setHoldMode_rounds_until (d h m s : Nat) (act : String)
    (hd1 : 1 ≤ d) (hd2 : d < maxOrdinal) (hh : h < 24) (hm : m < 60) (hs : s < 60) :
    setHoldModePayload .untilTime (some act) (some ⟨d, h * 3600 + m * 60 + s⟩)
        = .ok [("hold", "on"), ("activity", act),
            ("until", hhmmOfSec (((h * 60 + nearestQuarter m) % 1440) * 60))]
      ∧ nearestQuarter 53 = 60 ∧ nearestQuarter 7 = 0 ∧ nearestQuarter 8 = 15 := by
  refine ⟨?_, rfl, rfl, rfl⟩
  have hr := roundUntilDT_eq d h m s hd1 hd2 hh hm hs
  have hnq : nearestQuarter m ≤ 60 := by unfold nearestQuarter; omega
  have hcong := hhmmOfSec_congr ((h * 3600 + nearestQuarter m * 60 + s) % 86400)
    (((h * 60 + nearestQuarter m) % 1440) * 60) (by omega) (by omega)
  unfold setHoldModePayload
  simp only [hr, hcong]

/-- Witness for the hold-until rounding at concrete inputs: 10:53:20 is
sent as 11:00, 10:07:20 as 10:00, and 10:08:20 as 10:15. -/
theorem setHoldMode_rounds_until_witness :
    setHoldModePayload .untilTime (some "home") (some ⟨739007, 10 * 3600 + 53 * 60 + 20⟩)
        = .ok [("hold", "on"), ("activity", "home"), ("until", hhmmOfSec 39600)]
      ∧ setHoldModePayload .untilTime (some "home") (some ⟨739007, 10 * 3600 + 7 * 60 + 20⟩)
        = .ok [("hold", "on"), ("activity", "home"), ("until", hhmmOfSec 36000)]
      ∧ setHoldModePayload .untilTime (some "home") (some ⟨739007, 10 * 3600 + 8 * 60 + 20⟩)
        = .ok [("hold", "on"), ("activity", "home"), ("until", hhmmOfSec 36900)] := by
  refine ⟨?_, ?_, ?_⟩
  · have h := (setHoldMode_rounds_until 739007 10 53 20 "home" (by norm_num)
      (by norm_num [maxOrdinal]) (by norm_num) (by norm_num) (by norm_num)).1
    rw [h]
    rfl
  · have h := (setHoldMode_rounds_until 739007 10 7 20 "home" (by norm_num)
      (by norm_num [maxOrdinal]) (by norm_num) (by norm_num) (by norm_num)).1
    rw [h]
    rfl
  · have h := (setHoldMode_rounds_until 739007 10 8 20 "home" (by norm_num)
      (by norm_num [maxOrdinal]) (by norm_num) (by norm_num) (by norm_num)).1
    rw [h]
    rfl

/-- The decimal digits of a Nat, with fuel bounding the recursion depth;
fuel n + 1 always suffices for n. -/
def natDigitsGo : Nat → Nat → List Char
  | 0, _ => []
  | fuel + 1, n =>
    if n < 10 then [Char.ofNat (48 + n)]
    else natDigitsGo fuel (n / 10) ++ [Char.ofNat (48 + n % 10)]

/-- A Nat printed in decimal. -/
def natToStr (n : Nat) : String := String.mk (natDigitsGo (n + 1) n)

/-- Rounding of the exact quotient a / b half to even, for b positive. -/
def halfEvenDivInt (a b : Int) : Int :=
  let q := a / b
  let r := a % b
  if 2 * r < b then q
  else if b < 2 * r then q + 1
  else if q % 2 = 0 then q else q + 1

/-- The one-decimal f-string formatting applied to the setpoints: the
value rounded to tenths half to even and printed with one digit after the
point. The setpoints the client reads are decimal strings such as 68.0,
exactly representable, so double formatting agrees with the exact
rational rounding. -/
def fmt1 (x : Rat) : String :=
  let n : Int := halfEvenDivInt (x.num * 10) (x.den : Int)
  (if n < 0 then "-" else "") ++ natToStr (n.natAbs / 10) ++ "." ++ natToStr (n.natAbs % 10)

/-- The FanMode code table of const.py: AUTO = off, HIGH = high,
MEDIUM = med, LOW = low. -/
inductive FanModeE where
  | auto
  | high
  | medium
  | low
deriving DecidableEq, Repr

/-- The device code of a fan mode (the enum value written back to the
device). -/
def fanModeValue : FanModeE → String
  | .auto => "off"
  | .high => "high"
  | .medium => "med"
  | .low => "low"

/-- The slice of a zone that set_temperature reads: the zone id and the
accessor outputs temperature_cool, temperature_heat (the status clsp and
htsp values parsed as floats, absent when falsy) and fan_mode (the status
fan code mapped through the FanMode table, absent when falsy or
unknown). -/
structure ZoneSnapshot where
  id : String
  temperatureCool : Option Rat
  temperatureHeat : Option Rat
  fanMode : Option FanModeE
deriving DecidableEq, Repr

/-- Python truthiness of an optional float argument: None and 0 are both
falsy, which is exactly the test set_temperature applies to its
arguments. -/
def truthyRat : Option Rat → Bool
  | some v => decide (v ≠ 0)
  | none => false

/-- The setpoint resolution of set_temperature: an explicit truthy cool or
heat argument wins, else a truthy shared temperature, else the zone's
current value; returned as (heat, cool). -/
def resolveSetpoints (z : ZoneSnapshot)
    (temperature temperature_heat temperature_cool : Option Rat) :
    Option Rat × Option Rat :=
  let cool := if truthyRat temperature_cool then temperature_cool
    else if truthyRat temperature then temperature
    else z.temperatureCool
  let heat := if truthyRat temperature_heat then temperature_heat
    else if truthyRat temperature then temperature
    else z.temperatureHeat
  (heat, cool)

/-- Embedding of InfinitudeZone.set_temperature up to the activity write:
comparing an unresolved None setpoint raises TypeError, a resolved heat
above cool raises ValueError before any write, and otherwise the manual
activity endpoint is posted the formatted setpoints together with the
zone's current fan code (fan_mode.value on an absent fan mode raises
AttributeError). -/
def setTemperature (z : ZoneSnapshot)
    (temperature temperature_heat temperature_cool : Option Rat) :
    Except PyErr (String × List (String × String)) :=
  match resolveSetpoints z temperature temperature_heat temperature_cool with
  | (some heat, some cool) =>
    if cool < heat then .error .valueError
    else
      match z.fanMode with
      | none => .error .attributeError
      | some f =>
        .ok ("/api/" ++ z.id ++ "/activity/manual",
          [("htsp", fmt1 heat), ("clsp", fmt1 cool), ("fan", fanModeValue f)])
  | _ => .error .typeError

/-- C4: set_temperature raises a validation error whenever the resolved
heat exceeds the resolved cool, issuing no write; when resolved heat is
not above cool it writes the manual activity slot with the one-decimal
formatted setpoints and the pre-existing fan code, and 68 and 74 format
as 68.0 and 74.0. -/
theorem setTemperature_validates (z : ZoneSnapshot)
    (t th tc : Option Rat) (heat cool : Rat)
    (hres : resolveSetpoints z t th tc = (some heat, some cool)) :
    (cool < heat → setTemperature z t th tc = .error .valueError)
      ∧ (¬ cool < heat → ∀ f, z.fanMode = some f →
          setTemperature z t th tc
            = .ok ("/api/" ++ z.id ++ "/activity/manual",
                [("htsp", fmt1 heat), ("clsp", fmt1 cool), ("fan", fanModeValue f)]))
      ∧ fmt1 68 = "68.0" ∧ fmt1 74 = "74.0" := by
  refine ⟨fun hlt => ?_, fun hnlt f hf => ?_, by decide, by decide⟩
  · unfold setTemperature
    simp only [hres, if_pos hlt]
  · unfold setTemperature
    simp only [hres, if_neg hnlt, hf]

/-- Witness for the set_temperature contract: a zone holding heat 75 and
cool 70 rejects with the validation error, and a zone holding heat 68 and
cool 74 writes 68.0 and 74.0 with its fan code med. -/
theorem setTemperature_validates_witness :
    setTemperature ⟨"1", some 70, some 75, some .medium⟩ none none none
        = .error .valueError
      ∧ setTemperature ⟨"1", some 74, some 68, some .medium⟩ none none none
        = .ok ("/api/1/activity/manual",
            [("htsp", fmt1 68), ("clsp", fmt1 74), ("fan", "med")]) := by
  constructor
  · exact (setTemperature_validates ⟨"1", some 70, some 75, some .medium⟩
      none none none 75 70 rfl).1 (by norm_num)
  · have h := (setTemperature_validates ⟨"1", some 74, some 68, some .medium⟩
      none none none 68 74 rfl).2.1 (by norm_num) .medium rfl
    rw [h]
    rfl

/-- C10: a zero argument to set_temperature is treated exactly like an
omitted argument, for each of the three arguments, because the source
tests them for truthiness rather than for being None. -/
theorem setTemperature_zero_is_omitted (z : ZoneSnapshot) (t th tc : Option Rat) :
    setTemperature z (some 0) th tc = setTemperature z none th tc
      ∧ setTemperature z t (some 0) tc = setTemperature z t none tc
      ∧ setTemperature z t th (some 0) = setTemperature z t th none := by
  refine ⟨?_, ?_, ?_⟩ <;>
    simp [setTemperature, resolveSetpoints, truthyRat]

/-- The three snapshots that update() replaces. -/
structure ClientSnapshots where
  status : Json
  config : Json
  energy : Json
deriving Repr

/-- How the gathered fetches of update() conclude: the refresh timeout
cancels the tasks while update() is suspended in the gather, or all three
results arrive. The three per-snapshot update handlers that follow the
gather contain no await, so under cooperative scheduling no cancellation
point exists between them: the timeout either fires inside the gather or
not at all. -/
inductive RefreshOutcome where
  | timeout
  | fetched (status config energy : Json)

/-- Embedding of Infinitude.update: on timeout the TimeoutError is raised
with the cached snapshots untouched; on success all three snapshots are
replaced by the fetched documents. -/
def updateClient (s : ClientSnapshots) (g : RefreshOutcome) :
    Except PyErr Unit × ClientSnapshots :=
  match g with
  | .timeout => (.error .timeoutError, s)
  | .fetched st cf en => (.ok (), ⟨st, cf, en⟩)

/-- C9: whenever update() surfaces the timeout failure, none of the three
cached snapshots has been replaced: the post-call state is exactly the
pre-call state. -/
theorem updateClient_timeout_atomic (s : ClientSnapshots) (g : RefreshOutcome)
    (h : (updateClient s g).1 = .error .timeoutError) :
    (updateClient s g).2 = s ∧ (updateClient s g).2.status = s.status
      ∧ (updateClient s g).2.config = s.config
      ∧ (updateClient s g).2.energy = s.energy := by
  cases g with
  | timeout => exact ⟨rfl, rfl, rfl, rfl⟩
  | fetched st cf en => simp [updateClient] at h

/-- Witness for timeout atomicity at a concrete pre-call state. -/
theorem updateClient_timeout_atomic_witness :
    (updateClient ⟨.str "s", .str "c", .str "e"⟩ .timeout).2 = ⟨.str "s", .str "c", .str "e"⟩ :=
  (updateClient_timeout_atomic ⟨.str "s", .str "c", .str "e"⟩ .timeout rfl).1
